import Mathlib

/-!
Verification of the ollama-mcp-ts client (src/index.ts), a shallow embedding
in Lean 4.  The stateful methods of `MCPClient` are embedded as pure functions
that thread the client state explicitly and additionally return a log of the
externally visible calls (chat requests and tool invocations), so that claims
about call counts, call order and the histories each call observes can be
stated and proved.
-/

namespace OllamaMcp

/-- A JSON value, modelling the untyped argument mappings that tool-call
directives carry (`arguments as { [x: string]: unknown }` in the source). -/
inductive Json where
| str : String → Json
| num : Int → Json
| bool : Bool → Json
| null : Json
| arr : List Json → Json
| obj : List (String × Json) → Json
deriving Repr, Inhabited

/-- Escape a character as JSON.stringify does for the common cases. -/
def jsEscapeChar : Char → String
| '"' => "\\\""
| '\\' => "\\\\"
| '\n' => "\\n"
| '\t' => "\\t"
| '\r' => "\\r"
| c => String.singleton c

/-- Escape a string for inclusion in a JSON string literal. -/
def jsEscape (s : String) : String :=
s.foldl (fun acc c => acc ++ jsEscapeChar c) ""

mutual

/-- Embedding of the host `JSON.stringify` on our JSON values. -/
def Json.stringify : Json → String
| Json.str s => "\"" ++ jsEscape s ++ "\""
| Json.num n => toString n
| Json.bool b => if b then "true" else "false"
| Json.null => "null"
| Json.arr xs => "[" ++ String.intercalate "," (Json.stringifyList xs) ++ "]"
| Json.obj fs => "\x7b" ++ String.intercalate "," (Json.stringifyObj fs) ++ "\x7d"

/-- Stringify each element of a JSON array. -/
def Json.stringifyList : List Json → List String
| [] => []
| j :: js => Json.stringify j :: Json.stringifyList js

/-- Stringify each `key: value` member of a JSON object. -/
def Json.stringifyObj : List (String × Json) → List String
| [] => []
| (k, v) :: fs => ("\"" ++ jsEscape k ++ "\":" ++ Json.stringify v) :: Json.stringifyObj fs

end

/-- `JSON.stringify(toolArgs)` where `toolArgs` may be `undefined`; inside the
template literal an undefined value renders as the text `undefined`. -/
def stringifyOptArgs : Option Json → String
| none => "undefined"
| some j => Json.stringify j

/-- A conversation message (the `Message` shape of the ollama SDK as used
here: a role string and text content). -/
structure Message where
  role : String
  content : String
deriving Repr, DecidableEq

/-- The `function` payload of a tool descriptor sent to the chat model. -/
structure ToolFunctionDef where
  name : String
  description : String
  parameters : Json
deriving Repr

/-- A tool descriptor in the calling convention of the chat collaborator,
as built by `connectToServer` (`{type: "function", function: {...}}`). -/
structure Tool where
  type : String
  function : ToolFunctionDef
deriving Repr

/-- The `function` payload of a tool-call directive emitted by the model. -/
structure ToolCallFunction where
  name : String
  arguments : Option Json
deriving Repr

/-- A tool-call directive (`{function: {name, arguments}}`). -/
structure ToolCall where
  function : ToolCallFunction
deriving Repr

/-- The message part of a chat response: text content plus an optional list
of tool-call directives.  `tool_calls = none` models an absent (undefined)
field; `tool_calls = some l` models a present array, which JavaScript
truthiness treats as true even when `l` is empty. -/
structure ResponseMessage where
  content : String
  tool_calls : Option (List ToolCall)
deriving Repr

/-- A content item of a tool-call result: the switch in `processQuery`
distinguishes `text` items, `resource` items (read via `.resource.data`)
and any other kind. -/
inductive ContentItem where
| text : String → ContentItem
| resource : String → ContentItem
| other : String → ContentItem
deriving Repr, DecidableEq

/-- The textual representation of one content item, as computed by the
`switch (item.type)` in `processQuery`. -/
def contentItemText : ContentItem → String
| ContentItem.text t => t
| ContentItem.resource d => d
| ContentItem.other _ => ""

/-- Flattening of a tool result's content array into one blob:
`arrayResult.map(...).join('\n\n')`. -/
def flattenContent (items : List ContentItem) : String :=
String.intercalate "\n\n" (items.map contentItemText)

/-- A tool advertised by the MCP server (`listTools` result element). -/
structure ServerTool where
  name : String
  description : String
  inputSchemaProperties : Json
deriving Repr

/-- The client state: the `tools` field of `MCPClient`. -/
structure MCPClient where
  tools : List Tool
deriving Repr

/-- Translation of one advertised tool into the chat calling convention
(the `.map` in `connectToServer`). -/
def translateTool (t : ServerTool) : Tool :=
  { type := "function"
    function :=
      { name := t.name
        description := t.description
        parameters := t.inputSchemaProperties } }

/-- Externally visible actions of `connectToServer`: creating/spawning the
stdio child-process transport, and the `listTools` request. -/
inductive ConnEvent where
| spawn : String → List String → ConnEvent
| listToolsCall : ConnEvent
deriving Repr, DecidableEq

/-- Embedding of the host `String.prototype.endsWith` (suffix test on code
points), written over the character list so the kernel can evaluate it. -/
def strEndsWith (s suff : String) : Bool :=
suff.data.isSuffixOf s.data

/-- Embedding of the host `String.prototype.toLowerCase` (ASCII range),
written over the character list so the kernel can evaluate it. -/
def toLowerCase (s : String) : String :=
String.mk (s.data.map Char.toLower)

/-- Embedding of `MCPClient.connectToServer`.  Parameters stand for the host
environment (`process.platform`, `process.execPath`) and for the tool list
the server advertises on a successful `listTools`.  Returns the log of
connection events together with either the error thrown or the updated
client state. -/
def connectToServer (client : MCPClient) (serverScriptPath : String)
    (platform : String) (execPath : String) (serverTools : List ServerTool) :
    List ConnEvent × Except String MCPClient :=
  let isJs := strEndsWith serverScriptPath ".js"
  let isPy := strEndsWith serverScriptPath ".py"
  if !isJs && !isPy then
    ([], Except.error "Server script must be a .js or .py file")
  else
    let command := if isPy then (if platform == "win32" then "python" else "python3") else execPath
    ([ConnEvent.spawn command [serverScriptPath], ConnEvent.listToolsCall],
      Except.ok { client with tools := serverTools.map translateTool })

/-- Embedding of the dispatch decision of `chatLoop`: given the finite list
of input lines, the list of lines actually passed to `processQuery`, in
order.  A line whose `toLowerCase` equals `"quit"` breaks the loop. -/
def chatLoop : List String → List String
| [] => []
| m :: rest => if toLowerCase m == "quit" then [] else m :: chatLoop rest

/-- The environment of `processQuery`: the two external collaborators it
calls.  `chat` models `this.ollama.chat` as a function of the message
history and the optional `tools` field of the request (the model identifier
and `stream:false` are fixed in the source); `callTool` models
`this.mcp.callTool`, returning the `content` array of the result. -/
structure Env where
  chat : List Message → Option (List Tool) → ResponseMessage
  callTool : String → Option Json → List ContentItem

/-- Externally visible calls made during `processQuery`: a chat request
(with the history it sends and the `tools` field it attaches, `none` when
the field is omitted) or a tool invocation over the transport. -/
inductive Event where
| chatCall : List Message → Option (List Tool) → Event
| toolCall : String → Option Json → Event

/-- The trace line pushed for each directive:
`[Calling tool <name> with args <json-of-args>]`. -/
def callTrace (toolName : String) (toolArgs : Option Json) : String :=
"[Calling tool " ++ toolName ++ " with args " ++ stringifyOptArgs toolArgs ++ "]"

/-- The `tool`-role message appended to the history for one directive:
its content is the flattened content array returned by the transport. -/
def toolMsg (env : Env) (c : ToolCall) : Message :=
  { role := "tool"
    content := flattenContent (env.callTool c.function.name c.function.arguments) }

/-- The text pushed after each follow-up chat call:
`response.message.content ? response.message.content : ""` (a JavaScript
truthiness test, under which the empty string is falsy). -/
def followUpText (env : Env) (msgs : List Message) : String :=
  let response := env.chat msgs none
  if response.content.isEmpty then "" else response.content

/-- Embedding of the `for (let content of response.message.tool_calls)` loop
of `processQuery`, threading the mutable locals (`messages`, `finalText`)
and the event log.  The source also accumulates `toolResults`, which is
never read afterwards and is not modelled.  Returns the final `finalText`,
`messages` and event log. -/
def processDirectives (env : Env) :
    List ToolCall → List Message → List String → List Event →
    List String × List Message × List Event
| [], _messages, finalText, events => (finalText, _messages, events)
| content :: rest, messages, finalText, events =>
  let toolName := content.function.name
  let toolArgs := content.function.arguments
  let result := env.callTool toolName toolArgs
  let events1 := events ++ [Event.toolCall toolName toolArgs]
  let finalText1 := finalText ++ [callTrace toolName toolArgs]
  let flattened := flattenContent result
  let messages1 := messages ++ [{ role := "tool", content := flattened }]
  let response := env.chat messages1 none
  let events2 := events1 ++ [Event.chatCall messages1 none]
  let finalText2 := finalText1 ++
    [if response.content.isEmpty then "" else response.content]
  processDirectives env rest messages1 finalText2 events2

/-- The initial history entry `{role: "user", content: query}`. -/
def userMsg (query : String) : Message :=
  { role := "user", content := query }

/-- Embedding of `MCPClient.processQuery`.  Returns the text the method
returns, the log of external calls it made, and the client state it leaves
behind (the method body never writes any field of `this`). -/
def processQuery (env : Env) (client : MCPClient) (query : String) :
    (String × List Event) × MCPClient :=
  let messages : List Message := [userMsg query]
  let response := env.chat messages (some client.tools)
  let events : List Event := [Event.chatCall messages (some client.tools)]
  match response.tool_calls with
  | some toolCalls =>
    let r := processDirectives env toolCalls messages [] events
    ((String.intercalate "\n" r.1, r.2.2), client)
  | none =>
    ((String.intercalate "\n" [response.content], events), client)

/-- Fallback directive for positional indexing in statements. -/
def dfltToolCall : ToolCall :=
  { function := { name := "", arguments := none } }

/-- The history as it stands after the first `k` directives of a batch have
been processed: the initial user message followed by exactly the first `k`
tool-result messages. -/
def histAfter (env : Env) (query : String) (toolCalls : List ToolCall) (k : Nat) :
    List Message :=
  userMsg query :: (toolCalls.take k).map (toolMsg env)

/-- The histories sent on the chat requests of an event log, in order. -/
def chatHistories (events : List Event) : List (List Message) :=
  events.filterMap fun e =>
    match e with
    | Event.chatCall msgs _ => some msgs
    | Event.toolCall _ _ => none

/-- True of an event unless it is a chat request with a `tools` field. -/
def omitsTools : Event → Bool
| Event.chatCall _ (some _) => false
| _ => true

/-- Concrete directive used to evaluate the theorems below. -/
def tcW : ToolCall :=
  { function := { name := "add", arguments := some (Json.obj [("x", Json.num 2), ("y", Json.num 2)]) } }

/-- Concrete chat-side tool descriptor used to evaluate the theorems below. -/
def toolW : Tool :=
  { type := "function"
    function := { name := "add", description := "adds two numbers", parameters := Json.obj [] } }

/-- Concrete client holding one tool descriptor. -/
def clientW : MCPClient := { tools := [toolW] }

/-- Concrete client with no tool descriptors. -/
def clientEmpty : MCPClient := { tools := [] }

/-- Environment whose first response requests one tool call and whose
follow-up response is plain text. -/
def envW : Env :=
  { chat := fun _msgs tools =>
      match tools with
      | some _ => { content := "using a tool", tool_calls := some [tcW] }
      | none => { content := "the answer is 4", tool_calls := none }
    callTool := fun _ _ => [ContentItem.text "4"] }

/-- Environment whose responses never carry a `tool_calls` field. -/
def envAbsent : Env :=
  { chat := fun _ _ => { content := "plain answer", tool_calls := none }
    callTool := fun _ _ => [] }

/-- Environment whose responses carry a present but empty `tool_calls`
array next to nonempty text content. -/
def envEmptyBatch : Env :=
  { chat := fun _ _ => { content := "hello", tool_calls := some [] }
    callTool := fun _ _ => [] }

/-- A second environment with a present but empty `tool_calls` array. -/
def envEmptyBatch2 : Env :=
  { chat := fun _ _ => { content := "discarded text", tool_calls := some [] }
    callTool := fun _ _ => [] }

/-- Concrete server-side tool descriptor. -/
def serverToolW : ServerTool :=
  { name := "echo", description := "echoes input", inputSchemaProperties := Json.obj [] }

/-- Closed form of the directive loop: starting from accumulators
`msgs`, `ft`, `evs`, processing the batch `cs` appends, per directive `k`
(in order), one trace line and one follow-up text to `finalText`, one
tool message to `messages`, and one tool invocation followed by one chat
request (with tools omitted) to the event log, the chat request seeing the
history extended by the first `k + 1` tool messages. -/
theorem processDirectives_eq (env : Env) (cs : List ToolCall) :
    ∀ (msgs : List Message) (ft : List String) (evs : List Event),
      processDirectives env cs msgs ft evs =
        (ft ++ (List.range cs.length).flatMap (fun k =>
            [callTrace (cs.getD k dfltToolCall).function.name
                (cs.getD k dfltToolCall).function.arguments,
              followUpText env (msgs ++ (cs.take (k + 1)).map (toolMsg env))]),
          msgs ++ cs.map (toolMsg env),
          evs ++ (List.range cs.length).flatMap (fun k =>
            [Event.toolCall (cs.getD k dfltToolCall).function.name
                (cs.getD k dfltToolCall).function.arguments,
              Event.chatCall (msgs ++ (cs.take (k + 1)).map (toolMsg env)) none])) := by
  induction cs with
  | nil =>
    intro msgs ft evs
    simp [processDirectives]
  | cons c rest ih =>
    intro msgs ft evs
    simp only [processDirectives]
    rw [ih]
    simp [List.range_succ_eq_map, List.flatMap_map, Function.comp,
      List.take_succ_cons, toolMsg, callTrace, followUpText, List.append_assoc]

/-- Closed form of `processQuery` when the first chat response carries a
(tool-call) array: the returned text, the event log and the unchanged
client state. -/
theorem processQuery_eq_some (env : Env) (client : MCPClient) (query : String)
    (toolCalls : List ToolCall)
    (h : (env.chat [userMsg query] (some client.tools)).tool_calls = some toolCalls) :
    processQuery env client query =
      ((String.intercalate "\n" ((List.range toolCalls.length).flatMap fun k =>
          [callTrace (toolCalls.getD k dfltToolCall).function.name
              (toolCalls.getD k dfltToolCall).function.arguments,
            followUpText env (histAfter env query toolCalls (k + 1))]),
        Event.chatCall [userMsg query] (some client.tools) ::
          (List.range toolCalls.length).flatMap (fun k =>
            [Event.toolCall (toolCalls.getD k dfltToolCall).function.name
                (toolCalls.getD k dfltToolCall).function.arguments,
              Event.chatCall (histAfter env query toolCalls (k + 1)) none])),
        client) := by
  simp only [processQuery]
  rw [h]
  dsimp only
  rw [processDirectives_eq]
  simp [histAfter]

/-- Closed form of `processQuery` when the first chat response has no
`tool_calls` field: one chat request, and its content is returned. -/
theorem processQuery_eq_none (env : Env) (client : MCPClient) (query : String)
    (h : (env.chat [userMsg query] (some client.tools)).tool_calls = none) :
    processQuery env client query =
      (((env.chat [userMsg query] (some client.tools)).content,
        [Event.chatCall [userMsg query] (some client.tools)]), client) := by
  simp only [processQuery]
  rw [h]
  rfl

/-- A chat event at the head of a log contributes its history. -/
theorem chatHistories_cons_chat (m : List Message) (t : Option (List Tool)) (es : List Event) :
    chatHistories (Event.chatCall m t :: es) = m :: chatHistories es := rfl

/-- A tool event at the head of a log contributes no history. -/
theorem chatHistories_cons_tool (n : String) (a : Option Json) (es : List Event) :
    chatHistories (Event.toolCall n a :: es) = chatHistories es := rfl

/-- The chat histories of an interleaved tool-then-chat event log. -/
theorem chatHistories_pairs (l : List Nat) (f : Nat → String) (g : Nat → Option Json)
    (hist : Nat → List Message) :
    chatHistories (l.flatMap fun k =>
        [Event.toolCall (f k) (g k), Event.chatCall (hist k) none]) =
      l.map hist := by
  induction l with
  | nil => rfl
  | cons a l ih =>
    rw [List.flatMap_cons]
    show chatHistories (Event.toolCall (f a) (g a) :: Event.chatCall (hist a) none :: _) = _
    rw [chatHistories_cons_tool, chatHistories_cons_chat]
    show hist a :: chatHistories (l.flatMap fun k =>
        [Event.toolCall (f k) (g k), Event.chatCall (hist k) none]) = _
    rw [ih, List.map_cons]

/-- Claim C1: when the first chat response carries tool-call directives,
`processQuery` invokes the transport's `callTool` once per directive, in the
order the directives appear, and issues one follow-up chat request per
directive with the `tools` field omitted, where the k-th follow-up request
(1-indexed) is sent on a history consisting of the initial user message
followed by exactly the first k tool-result messages appended so far. -/
theorem processQuery_batch_events (env : Env) (client : MCPClient) (query : String)
    (toolCalls : List ToolCall)
    (h : (env.chat [userMsg query] (some client.tools)).tool_calls = some toolCalls) :
    (processQuery env client query).1.2 =
      Event.chatCall [userMsg query] (some client.tools) ::
        (List.range toolCalls.length).flatMap (fun k =>
          [Event.toolCall (toolCalls.getD k dfltToolCall).function.name
              (toolCalls.getD k dfltToolCall).function.arguments,
            Event.chatCall (histAfter env query toolCalls (k + 1)) none]) := by
  rw [processQuery_eq_some env client query toolCalls h]

/-- Witness for C1: a batch of one directive, evaluated concretely. -/
theorem processQuery_batch_events_witness :
    (processQuery envW clientW "ask").1.2 =
      Event.chatCall [userMsg "ask"] (some clientW.tools) ::
        (List.range ([tcW].length)).flatMap (fun k =>
          [Event.toolCall (([tcW]).getD k dfltToolCall).function.name
              (([tcW]).getD k dfltToolCall).function.arguments,
            Event.chatCall (histAfter envW "ask" [tcW] (k + 1)) none]) :=
  processQuery_batch_events envW clientW "ask" [tcW] rfl

/-- Claim C2 (amended): when the first chat response's `tool_calls` field is
absent, `processQuery` returns exactly that response's text content. -/
theorem processQuery_no_batch_text (env : Env) (client : MCPClient) (query : String)
    (h : (env.chat [userMsg query] (some client.tools)).tool_calls = none) :
    (processQuery env client query).1.1 =
      (env.chat [userMsg query] (some client.tools)).content := by
  rw [processQuery_eq_none env client query h]

/-- Witness for C2 (amended), evaluated concretely. -/
theorem processQuery_no_batch_text_witness :
    (processQuery envAbsent clientEmpty "hi").1.1 =
      (envAbsent.chat [userMsg "hi"] (some clientEmpty.tools)).content :=
  processQuery_no_batch_text envAbsent clientEmpty "hi" rfl

/-- Counterexample to C2 as stated: a response with a present but empty
`tool_calls` array contains zero tool-call directives, yet `processQuery`
returns the empty string rather than the response's text content, because
JavaScript treats an empty array as truthy. -/
theorem processQuery_zero_directives_cex :
    (envEmptyBatch.chat [userMsg "hi"] (some clientEmpty.tools)).tool_calls = some [] ∧
    (envEmptyBatch.chat [userMsg "hi"] (some clientEmpty.tools)).content = "hello" ∧
    (processQuery envEmptyBatch clientEmpty "hi").1.1 ≠
      (envEmptyBatch.chat [userMsg "hi"] (some clientEmpty.tools)).content := by
  refine ⟨rfl, rfl, ?_⟩
  decide

/-- Claim C3: each content item maps to its textual representation (text
verbatim, resource items to their embedded data field, any other kind to the
empty string), the blob joins these with a blank-line separator, and on the
items text "a", resource "b", unknown the blob is "a\n\nb\n\n". -/
theorem flattenContent_spec :
    flattenContent [ContentItem.text "a", ContentItem.resource "b", ContentItem.other "u"] =
      "a\n\nb\n\n" ∧
    (∀ t, contentItemText (ContentItem.text t) = t) ∧
    (∀ d, contentItemText (ContentItem.resource d) = d) ∧
    (∀ ty, contentItemText (ContentItem.other ty) = "") ∧
    (∀ items, flattenContent items =
      String.intercalate "\n\n" (items.map contentItemText)) := by
  refine ⟨by decide, fun t => rfl, fun d => rfl, fun ty => rfl, fun items => rfl⟩

/-- Claim C5: when the first chat response carries tool-call directives,
the text `processQuery` returns is the newline-join of two entries per
directive, in order: the trace line and the follow-up response's text
content (the empty string when that content is empty). -/
theorem processQuery_batch_text (env : Env) (client : MCPClient) (query : String)
    (toolCalls : List ToolCall)
    (h : (env.chat [userMsg query] (some client.tools)).tool_calls = some toolCalls) :
    (processQuery env client query).1.1 =
      String.intercalate "\n" ((List.range toolCalls.length).flatMap fun k =>
        [callTrace (toolCalls.getD k dfltToolCall).function.name
            (toolCalls.getD k dfltToolCall).function.arguments,
          followUpText env (histAfter env query toolCalls (k + 1))]) := by
  rw [processQuery_eq_some env client query toolCalls h]

/-- Witness for C5: a batch of one directive, evaluated concretely. -/
theorem processQuery_batch_text_witness :
    (processQuery envW clientW "ask").1.1 =
      String.intercalate "\n" ((List.range ([tcW].length)).flatMap fun k =>
        [callTrace (([tcW]).getD k dfltToolCall).function.name
            (([tcW]).getD k dfltToolCall).function.arguments,
          followUpText envW (histAfter envW "ask" [tcW] (k + 1))]) :=
  processQuery_batch_text envW clientW "ask" [tcW] rfl

/-- Claim C4: for a server script path ending neither in ".js" nor in ".py",
`connectToServer` fails with the unsupported-script-type error and the event
log is empty: no child-process transport is created or spawned before the
failure. -/
theorem connectToServer_bad_suffix (client : MCPClient)
    (serverScriptPath platform execPath : String) (serverTools : List ServerTool)
    (h1 : strEndsWith serverScriptPath ".js" = false)
    (h2 : strEndsWith serverScriptPath ".py" = false) :
    connectToServer client serverScriptPath platform execPath serverTools =
      ([], Except.error "Server script must be a .js or .py file") := by
  simp [connectToServer, h1, h2]

/-- Witness for C4 at the path "server.txt". -/
theorem connectToServer_bad_suffix_witness :
    connectToServer clientEmpty "server.txt" "linux" "/usr/bin/node" [] =
      ([], Except.error "Server script must be a .js or .py file") :=
  connectToServer_bad_suffix clientEmpty "server.txt" "linux" "/usr/bin/node" []
    (by decide) (by decide)

/-- Claim C6: an input line whose lowercase form is "quit" terminates the
loop with no further query dispatched, and any other line (including lines
with surrounding whitespace) is dispatched to `processQuery`. -/
theorem chatLoop_quit_dispatch (line : String) (rest : List String) :
    (toLowerCase line = "quit" → chatLoop (line :: rest) = []) ∧
    (toLowerCase line ≠ "quit" → chatLoop (line :: rest) = line :: chatLoop rest) := by
  constructor
  · intro h
    simp [chatLoop, h]
  · intro h
    simp [chatLoop, h]

/-- Witness for C6: "QUIT" terminates without dispatch, a quit with
surrounding whitespace is dispatched. -/
theorem chatLoop_quit_dispatch_witness :
    chatLoop ["QUIT", "hello"] = [] ∧ chatLoop ["  quit ", "QUIT"] = ["  quit "] := by
  constructor
  · exact (chatLoop_quit_dispatch "QUIT" ["hello"]).1 (by decide)
  · rw [(chatLoop_quit_dispatch "  quit " ["QUIT"]).2 (by decide),
      (chatLoop_quit_dispatch "QUIT" []).1 (by decide)]

/-- Claim C7: a successful connection stores a tool descriptor list with the
same cardinality as the advertised list and with the tool names preserved
element-wise in order. -/
theorem connectToServer_tools_preserved (client : MCPClient)
    (serverScriptPath platform execPath : String) (serverTools : List ServerTool)
    (h : strEndsWith serverScriptPath ".js" = true ∨
      strEndsWith serverScriptPath ".py" = true) :
    ((connectToServer client serverScriptPath platform execPath serverTools).2.toOption).map
        (fun c => c.tools.length) = some serverTools.length ∧
    ((connectToServer client serverScriptPath platform execPath serverTools).2.toOption).map
        (fun c => c.tools.map fun t => t.function.name) =
      some (serverTools.map fun t => t.name) := by
  have hc : (!(strEndsWith serverScriptPath ".js") && !(strEndsWith serverScriptPath ".py"))
      = false := by
    rcases h with h | h <;> simp [h]
  constructor
  · simp [connectToServer, hc]
    exact ⟨_, rfl, by simp⟩
  · simp [connectToServer, hc]
    exact ⟨_, rfl, by simp [translateTool, List.map_map, Function.comp]⟩

/-- Witness for C7 at the path "server.js" and one advertised tool. -/
theorem connectToServer_tools_preserved_witness :
    ((connectToServer clientEmpty "server.js" "linux" "/usr/bin/node" [serverToolW]).2.toOption).map
        (fun c => c.tools.length) = some ([serverToolW].length) ∧
    ((connectToServer clientEmpty "server.js" "linux" "/usr/bin/node" [serverToolW]).2.toOption).map
        (fun c => c.tools.map fun t => t.function.name) =
      some ([serverToolW].map fun t => t.name) :=
  connectToServer_tools_preserved clientEmpty "server.js" "linux" "/usr/bin/node"
    [serverToolW] (Or.inl (by decide))

/-- Claim C8: a chat response whose `tool_calls` field is present but empty
contains zero tool-call directives, yet `processQuery` returns the empty
string, discarding the response's text content entirely. -/
theorem processQuery_empty_batch_empty_result :
    (envEmptyBatch2.chat [userMsg "q"] (some clientEmpty.tools)).tool_calls = some [] ∧
    (envEmptyBatch2.chat [userMsg "q"] (some clientEmpty.tools)).content = "discarded text" ∧
    (processQuery envEmptyBatch2 clientEmpty "q").1.1 = "" :=
  ⟨rfl, rfl, rfl⟩

/-- Claim C9: within a `processQuery` invocation the history starts as
exactly the one user message, each chat request sees the history after the
directives processed so far (so after k directives its length is 1 + k),
each processed directive extends the history by exactly one tool-role
message, and no history ever contains an assistant-role message: every
entry is the user message or a tool message. -/
theorem processQuery_history_invariant (env : Env) (client : MCPClient) (query : String)
    (toolCalls : List ToolCall)
    (h : (env.chat [userMsg query] (some client.tools)).tool_calls = some toolCalls) :
    chatHistories (processQuery env client query).1.2 =
      (List.range (toolCalls.length + 1)).map (histAfter env query toolCalls) ∧
    histAfter env query toolCalls 0 = [userMsg query] ∧
    (∀ k, k ≤ toolCalls.length → (histAfter env query toolCalls k).length = 1 + k) ∧
    (∀ k, k < toolCalls.length → ∃ t, t.role = "tool" ∧
        histAfter env query toolCalls (k + 1) = histAfter env query toolCalls k ++ [t]) ∧
    (∀ k, ∀ m ∈ histAfter env query toolCalls k, m.role = "user" ∨ m.role = "tool") := by
  refine ⟨?_, rfl, ?_, ?_, ?_⟩
  · rw [processQuery_eq_some env client query toolCalls h, chatHistories_cons_chat,
      chatHistories_pairs, List.range_succ_eq_map, List.map_cons, List.map_map]
    rfl
  · intro k hk
    simp [histAfter, List.length_take, Nat.min_eq_left hk, Nat.add_comm]
  · intro k hk
    refine ⟨toolMsg env (toolCalls.getD k dfltToolCall), rfl, ?_⟩
    simp only [histAfter]
    rw [List.take_succ, List.getElem?_eq_getElem hk, List.getD_eq_getElem _ _ hk]
    simp
    rw [List.take_succ]
    simp [List.getElem?_map, List.getElem?_eq_getElem hk]
  · intro k m hm
    simp only [histAfter, List.mem_cons, List.mem_map] at hm
    rcases hm with rfl | ⟨c, _, rfl⟩
    · left
      rfl
    · right
      rfl

/-- Witness for C9: one directive, evaluated concretely. -/
theorem processQuery_history_invariant_witness :
    chatHistories (processQuery envW clientW "ask").1.2 =
      (List.range ([tcW].length + 1)).map (histAfter envW "ask" [tcW]) ∧
    (histAfter envW "ask" [tcW] 1).length = 1 + 1 :=
  ⟨(processQuery_history_invariant envW clientW "ask" [tcW] rfl).1,
    (processQuery_history_invariant envW clientW "ask" [tcW] rfl).2.2.1 1 (by decide)⟩

/-- Claim C10: `processQuery` leaves the client's stored tool descriptors
unchanged; the first chat request of a query attaches exactly that stored
descriptor list, and every later request in the same query omits the
`tools` field. -/
theorem processQuery_tools_frame (env : Env) (client : MCPClient) (query : String) :
    (processQuery env client query).2 = client ∧
    (processQuery env client query).1.2.head? =
      some (Event.chatCall [userMsg query] (some client.tools)) ∧
    (processQuery env client query).1.2.tail.all omitsTools = true := by
  rcases hr : (env.chat [userMsg query] (some client.tools)).tool_calls with _ | toolCalls
  · rw [processQuery_eq_none env client query hr]
    exact ⟨rfl, rfl, rfl⟩
  · rw [processQuery_eq_some env client query toolCalls hr]
    refine ⟨rfl, rfl, ?_⟩
    simp only [List.tail_cons]
    rw [List.all_eq_true]
    intro e he
    rw [List.mem_flatMap] at he
    obtain ⟨k, -, he⟩ := he
    simp only [List.mem_cons, List.mem_singleton, List.not_mem_nil, or_false] at he
    rcases he with rfl | rfl
    · rfl
    · rfl

end OllamaMcp
